import Mathlib

/-!
Verification of the Logcha time-computation rules against the repository
source.  The definitions below are shallow embeddings of:

* the generated hour columns, check constraints and the stored procedures
  `calculate_weekly_summary` / `get_ojt_progress` of
  `src/supabase-migration.sql`, and
* the Zod schemas `timeRecordSchema` / `traineeSchema` of
  `src/lib/validations.ts`.

PostgreSQL `numeric` values are modelled as `ℚ`; the cast to `DECIMAL(p,2)`
and `ROUND(x, 2)` are modelled by `psqlRound2` (round to 2 decimal places,
ties away from zero, which PostgreSQL uses).  `TIME` values are microseconds
since midnight (`ℕ`); `DATE` values are day counts (`ℤ`).  SQL `NULL` is
`Option.none`, and a raised SQL error is `Except.error`.
-/

namespace Logcha

/-- Round a rational to 2 decimal places, ties away from zero.  This is the
semantics of PostgreSQL `ROUND(x, 2)` and of the cast performed when a value
is stored into a `DECIMAL(p,2)` table column. -/
def psqlRound2 (q : ℚ) : ℚ :=
  if 0 ≤ q then (⌊q * 100 + 1/2⌋ : ℚ) / 100
  else -((⌊(-q) * 100 + 1/2⌋ : ℚ) / 100)

inductive TraineeType
  | paid_intern
  | unpaid_intern
  | ojt
  deriving DecidableEq, Repr

inductive TraineeStatus
  | active
  | completed
  | terminated
  deriving DecidableEq, Repr

inductive TimeRecordStatus
  | present
  | half_day_am
  | half_day_pm
  | absent
  deriving DecidableEq, Repr

/-- A row of the `trainees` table (the columns the computations read).
`hourly_rate` and `total_required_hours` are nullable columns. -/
structure Trainee where
  trainee_type : TraineeType
  hourly_rate : Option ℚ
  max_weekly_hours : ℤ
  total_required_hours : Option ℤ
  status : TraineeStatus
  deriving DecidableEq, Repr

/-- The raw (user-supplied) columns of a `time_records` row.  Times are
microseconds since midnight, `date` is a day count. -/
structure TimeRecordRow where
  date : ℤ
  am_time_in : Option ℕ
  am_time_out : Option ℕ
  pm_time_in : Option ℕ
  pm_time_out : Option ℕ
  status : TimeRecordStatus
  deriving DecidableEq, Repr

/-- The CASE expression shared by the three generated columns of
`time_records`: when both endpoints of a session are non-NULL it is
`EXTRACT(EPOCH FROM (t_out - t_in)) / 3600.0` (hours, exact), else 0.
With microsecond times the epoch difference in hours is
`(t_out - t_in) / 3600000000`. -/
def sessionRawHours : Option ℕ → Option ℕ → ℚ
  | some tin, some tout => ((tout : ℚ) - (tin : ℚ)) / 3600000000
  | _, _ => 0

/-- Generated column `am_hours DECIMAL(4,2)`: the raw duration stored into a
2-decimal column. -/
def am_hours (r : TimeRecordRow) : ℚ :=
  psqlRound2 (sessionRawHours r.am_time_in r.am_time_out)

/-- Generated column `pm_hours DECIMAL(4,2)`. -/
def pm_hours (r : TimeRecordRow) : ℚ :=
  psqlRound2 (sessionRawHours r.pm_time_in r.pm_time_out)

/-- Generated column `total_hours DECIMAL(4,2)`: the SQL expression adds the
two raw CASE durations and only then stores the sum into a 2-decimal column
(it does not add the already-rounded `am_hours`/`pm_hours`). -/
def total_hours (r : TimeRecordRow) : ℚ :=
  psqlRound2 (sessionRawHours r.am_time_in r.am_time_out +
    sessionRawHours r.pm_time_in r.pm_time_out)

/-- The shape of `chk_am_times` / `chk_pm_times`:
`t_out IS NULL OR t_in IS NULL OR t_out > t_in`. -/
def chkSessionTimes : Option ℕ → Option ℕ → Bool
  | some tin, some tout => tin < tout
  | _, _ => true

/-- Check constraint `chk_am_times` of `time_records`. -/
def chk_am_times (r : TimeRecordRow) : Bool :=
  chkSessionTimes r.am_time_in r.am_time_out

/-- Check constraint `chk_pm_times` of `time_records`. -/
def chk_pm_times (r : TimeRecordRow) : Bool :=
  chkSessionTimes r.pm_time_in r.pm_time_out

/-- Errors raised by the database layer.  `checkViolation` carries the name
of the violated constraint; `divisionByZero` is PostgreSQL error 22012.
`invalidTraineeConfig` models the error code `InvalidTraineeConfig` named by
the specification's error taxonomy; no code path in `src/` produces it, it
exists here only so that claims about it can be stated. -/
inductive SqlError
  | checkViolation (name : String)
  | divisionByZero
  | invalidTraineeConfig
  deriving DecidableEq, Repr

def isErr {α : Type} : Except SqlError α → Bool
  | .error _ => true
  | .ok _ => false

/-- Inserting a `time_records` row: the row is accepted (and its generated
hour columns become visible via `am_hours`/`pm_hours`/`total_hours`) exactly
when both check constraints hold; otherwise the INSERT fails with a check
violation. -/
def insert_time_record (r : TimeRecordRow) : Except SqlError TimeRecordRow :=
  if ¬ chk_am_times r then .error (.checkViolation "chk_am_times")
  else if ¬ chk_pm_times r then .error (.checkViolation "chk_pm_times")
  else .ok r

/-- `COALESCE(SUM(tr.total_hours), 0)` over a list of rows. -/
def sumTotalHours (recs : List TimeRecordRow) : ℚ :=
  (recs.map total_hours).sum

/-- Result row of `calculate_weekly_summary`.  `gross_pay` is `none` when
the SQL expression evaluates to NULL (paid intern with NULL hourly_rate). -/
structure WeeklySummary where
  total_hours_worked : ℚ
  billable_hours : ℚ
  gross_pay : Option ℚ
  days_present : ℕ
  deriving DecidableEq, Repr

/-- `calculate_weekly_summary(p_trainee_id, p_week_start)` from
`src/supabase-migration.sql`, with the trainee row and its `time_records`
rows passed explicitly.  The function keeps the rows whose date lies in
`[p_week_start, p_week_start + 6]`, sums their `total_hours`, caps the
billable hours at `max_weekly_hours` for the two intern types (`LEAST`),
pays `billable * hourly_rate` for paid interns and 0 otherwise, and counts
the days whose status is present / half_day_am / half_day_pm. -/
def calculate_weekly_summary (t : Trainee) (p_week_start : ℤ)
    (recs : List TimeRecordRow) : WeeklySummary :=
  let inRange := recs.filter fun r =>
    decide (p_week_start ≤ r.date) && decide (r.date ≤ p_week_start + 6)
  let s := sumTotalHours inRange
  { total_hours_worked := s
    billable_hours :=
      if t.trainee_type = .paid_intern ∨ t.trainee_type = .unpaid_intern then
        min s (t.max_weekly_hours : ℚ)
      else s
    gross_pay :=
      if t.trainee_type = .paid_intern then
        t.hourly_rate.map fun rate => min s (t.max_weekly_hours : ℚ) * rate
      else some 0
    days_present :=
      (inRange.filter fun r =>
        decide (r.status = .present ∨ r.status = .half_day_am ∨
          r.status = .half_day_pm)).length }

/-- Result row of `get_ojt_progress`.  The nullable output columns are
`Option`: SQL NULL propagates through `-` and `ROUND`. -/
structure OJTProgressRow where
  total_required_hours : Option ℤ
  hours_rendered : ℚ
  remaining_hours : Option ℚ
  completion_percentage : Option ℚ
  deriving DecidableEq, Repr

/-- `get_ojt_progress(p_trainee_id)` from `src/supabase-migration.sql`,
restricted to the single trainee given (batch mode maps this row-wise).
The query keeps the trainee only when `trainee_type = 'ojt'` and
`status = 'active'` (result `none` otherwise), left-joins all of its time
records, and computes `COALESCE(SUM(total_hours), 0)`,
`total_required_hours - rendered` and
`ROUND(rendered / total_required_hours * 100, 2)`.  A NULL
`total_required_hours` makes the two derived columns NULL; a zero value
makes the division raise `division_by_zero`. -/
def get_ojt_progress (t : Trainee) (recs : List TimeRecordRow) :
    Except SqlError (Option OJTProgressRow) :=
  if t.trainee_type = .ojt ∧ t.status = .active then
    let s := sumTotalHours recs
    match t.total_required_hours with
    | none => .ok (some ⟨none, s, none, none⟩)
    | some req =>
      if req = 0 then .error .divisionByZero
      else .ok (some ⟨some req, s, some ((req : ℚ) - s),
        some (psqlRound2 (s / (req : ℚ) * 100))⟩)
  else .ok none

/-! ## The Zod validation layer (`src/lib/validations.ts`) -/

/-- The rule codes a `timeRecordSchema.superRefine` issue can carry, one per
`ctx.addIssue` site, in source order. -/
inductive RuleCode
  | invalidSessionOrderAM
  | invalidSessionOrderPM
  | sessionOverlap
  | incompleteSessionForPresent
  | futureDateNotAllowed
  deriving DecidableEq, Repr

/-- A candidate time record as seen by `timeRecordSchema` after the base
object parse: optional `HH:MM` strings become minutes since midnight
(`none` covers both `undefined` and the empty string, which the source's
truthiness tests treat identically), and the `YYYY-MM-DD` date string
becomes an epoch day count. -/
structure TimeRecordForm where
  date : ℤ
  am_time_in : Option ℕ
  am_time_out : Option ℕ
  pm_time_in : Option ℕ
  pm_time_out : Option ℕ
  status : TimeRecordStatus
  deriving DecidableEq, Repr

/-- The future-date test of `timeRecordSchema`, with ECMAScript `Date`
semantics spelled out: `new Date(data.date)` parses a date-only string as
*UTC* midnight (`date * 86400000` ms), while `new Date()` followed by
`setHours(0, 0, 0, 0)` is *local* midnight of today
(`today * 86400000 - tzOffsetMin * 60000` ms, where `tzOffsetMin` is the
runtime timezone's offset in minutes east of UTC).  The issue fires when
the former exceeds the latter. -/
def futureDateCheck (date today tzOffsetMin : ℤ) : Bool :=
  date * 86400000 > today * 86400000 - tzOffsetMin * 60000

/-- `timeRecordSchema.superRefine` from `src/lib/validations.ts`: the five
`ctx.addIssue` sites run unconditionally in order, each appending its issue
when its condition holds.  `today` is the local calendar date of `new
Date()` and `tzOffsetMin` the runtime timezone offset (minutes east of
UTC). -/
def validateTimeRecord (f : TimeRecordForm) (today tzOffsetMin : ℤ) :
    List RuleCode :=
  (match f.am_time_in, f.am_time_out with
   | some amIn, some amOut =>
     if amOut ≤ amIn then [RuleCode.invalidSessionOrderAM] else []
   | _, _ => []) ++
  (match f.pm_time_in, f.pm_time_out with
   | some pmIn, some pmOut =>
     if pmOut ≤ pmIn then [RuleCode.invalidSessionOrderPM] else []
   | _, _ => []) ++
  (match f.am_time_out, f.pm_time_in with
   | some amOut, some pmIn =>
     if pmIn ≤ amOut then [RuleCode.sessionOverlap] else []
   | _, _ => []) ++
  (if f.status = .present ∧
      (f.am_time_in = none ∨ f.am_time_out = none) ∧
      (f.pm_time_in = none ∨ f.pm_time_out = none) then
    [RuleCode.incompleteSessionForPresent]
  else []) ++
  (if futureDateCheck f.date today tzOffsetMin then
    [RuleCode.futureDateNotAllowed]
  else [])

/-- Per-rule characterisation: `violates c` holds exactly when the source
condition guarding the `ctx.addIssue` call for code `c` holds. -/
def violates (c : RuleCode) (f : TimeRecordForm) (today tzOffsetMin : ℤ) :
    Bool :=
  match c with
  | .invalidSessionOrderAM =>
    match f.am_time_in, f.am_time_out with
    | some amIn, some amOut => amOut ≤ amIn
    | _, _ => false
  | .invalidSessionOrderPM =>
    match f.pm_time_in, f.pm_time_out with
    | some pmIn, some pmOut => pmOut ≤ pmIn
    | _, _ => false
  | .sessionOverlap =>
    match f.am_time_out, f.pm_time_in with
    | some amOut, some pmIn => pmIn ≤ amOut
    | _, _ => false
  | .incompleteSessionForPresent =>
    decide (f.status = .present ∧
      (f.am_time_in = none ∨ f.am_time_out = none) ∧
      (f.pm_time_in = none ∨ f.pm_time_out = none))
  | .futureDateNotAllowed => futureDateCheck f.date today tzOffsetMin

/-- The issue codes a `traineeSchema` parse can report.  The first three
come from the base object schema (`z.number().min(...)`), the last three
from the `superRefine` sites. -/
inductive TraineeIssue
  | hourlyRateBelowMin
  | maxWeeklyHoursBelowMin
  | totalRequiredHoursBelowMin
  | hourlyRateRequiredForPaid
  | totalRequiredHoursRequiredForOjt
  | endDateNotAfterStart
  deriving DecidableEq, Repr

/-- A candidate trainee configuration as seen by `traineeSchema`: numeric
fields are rationals, optional fields are `Option`, date strings become day
counts (`start_date` is a non-empty string by the base schema, so it is
always present). -/
structure TraineeForm where
  trainee_type : TraineeType
  hourly_rate : Option ℚ
  max_weekly_hours : ℚ
  total_required_hours : Option ℚ
  start_date : ℤ
  end_date : Option ℤ
  deriving DecidableEq, Repr

/-- JavaScript truthiness of an optional number: `!x` holds for `undefined`
and for `0`. -/
def jsFalsy : Option ℚ → Bool
  | none => true
  | some q => q = 0

/-- Issues of the base `z.object` of `traineeSchema`:
`hourly_rate: z.number().min(0).optional()`,
`max_weekly_hours: z.number().min(1, ...)`,
`total_required_hours: z.number().min(1).optional()`. -/
def traineeBaseIssues (t : TraineeForm) : List TraineeIssue :=
  (match t.hourly_rate with
   | some q => if q < 0 then [TraineeIssue.hourlyRateBelowMin] else []
   | none => []) ++
  (if t.max_weekly_hours < 1 then [TraineeIssue.maxWeeklyHoursBelowMin]
   else []) ++
  (match t.total_required_hours with
   | some q => if q < 1 then [TraineeIssue.totalRequiredHoursBelowMin] else []
   | none => [])

/-- The `superRefine` of `traineeSchema`.  Note the source tests
`!data.hourly_rate` and `!data.total_required_hours`, i.e. JavaScript
falsiness, not absence. -/
def traineeRefineIssues (t : TraineeForm) : List TraineeIssue :=
  (if t.trainee_type = .paid_intern ∧ jsFalsy t.hourly_rate then
    [TraineeIssue.hourlyRateRequiredForPaid]
  else []) ++
  (if t.trainee_type = .ojt ∧ jsFalsy t.total_required_hours then
    [TraineeIssue.totalRequiredHoursRequiredForOjt]
  else []) ++
  (match t.end_date with
   | some e => if e ≤ t.start_date then [TraineeIssue.endDateNotAfterStart]
     else []
   | none => [])

/-- Parsing with `traineeSchema`: Zod runs a `superRefine` only when the
base object schema succeeded, so base issues pre-empt refinement issues.
A candidate is accepted exactly when the result is `[]`. -/
def traineeSchemaIssues (t : TraineeForm) : List TraineeIssue :=
  if traineeBaseIssues t = [] then traineeRefineIssues t
  else traineeBaseIssues t

/-! ## Arithmetic lemmas about the 2-decimal rounding -/

lemma psqlRound2_of_nonneg (q : ℚ) (h : 0 ≤ q) :
    psqlRound2 q = (⌊q * 100 + 1/2⌋ : ℚ) / 100 := by
  simp [psqlRound2, h]

/-- Rounding a nonnegative value stays nonnegative. -/
lemma psqlRound2_nonneg (q : ℚ) (h : 0 ≤ q) : 0 ≤ psqlRound2 q := by
  rw [psqlRound2_of_nonneg q h]
  have h0 : (0 : ℤ) ≤ ⌊q * 100 + 1/2⌋ := by
    rw [Int.le_floor]
    push_cast
    nlinarith
  positivity

/-- For a nonnegative argument the rounding error lies in `(-1/200, 1/200]`,
which (together with being a multiple of `1/100`) characterises
round-half-up to 2 decimal places. -/
lemma psqlRound2_err (q : ℚ) (h : 0 ≤ q) :
    -(1/200) < psqlRound2 q - q ∧ psqlRound2 q - q ≤ 1/200 := by
  rw [psqlRound2_of_nonneg q h]
  have h1 : (⌊q * 100 + 1/2⌋ : ℚ) ≤ q * 100 + 1/2 := Int.floor_le _
  have h2 : q * 100 + 1/2 < (⌊q * 100 + 1/2⌋ : ℚ) + 1 :=
    Int.lt_floor_add_one _
  constructor <;> nlinarith

/-- The rounded value is a multiple of `1/100`. -/
lemma psqlRound2_cent (q : ℚ) : ∃ k : ℤ, psqlRound2 q = (k : ℚ) / 100 := by
  unfold psqlRound2
  split
  · exact ⟨⌊q * 100 + 1/2⌋, rfl⟩
  · exact ⟨-⌊(-q) * 100 + 1/2⌋, by push_cast; ring⟩

/-- Rounding once after adding differs from adding the two roundings by at
most one cent. -/
lemma psqlRound2_add_bound (a b : ℚ) (ha : 0 ≤ a) (hb : 0 ≤ b) :
    |psqlRound2 (a + b) - (psqlRound2 a + psqlRound2 b)| ≤ 1/100 := by
  have hab : 0 ≤ a + b := by linarith
  rw [psqlRound2_of_nonneg a ha, psqlRound2_of_nonneg b hb,
    psqlRound2_of_nonneg _ hab]
  set u := ⌊a * 100 + 1/2⌋ with hu
  set v := ⌊b * 100 + 1/2⌋ with hv
  set w := ⌊(a + b) * 100 + 1/2⌋ with hw
  have hu1 : (u : ℚ) ≤ a * 100 + 1/2 := Int.floor_le _
  have hu2 : a * 100 + 1/2 < (u : ℚ) + 1 := Int.lt_floor_add_one _
  have hv1 : (v : ℚ) ≤ b * 100 + 1/2 := Int.floor_le _
  have hv2 : b * 100 + 1/2 < (v : ℚ) + 1 := Int.lt_floor_add_one _
  have hw1 : (w : ℚ) ≤ (a + b) * 100 + 1/2 := Int.floor_le _
  have hw2 : (a + b) * 100 + 1/2 < (w : ℚ) + 1 := Int.lt_floor_add_one _
  have hlt : ((w - u - v : ℤ) : ℚ) < 2 := by push_cast; linarith
  have hgt : (-2 : ℚ) < ((w - u - v : ℤ) : ℚ) := by push_cast; linarith
  have hz1 : w - u - v < 2 := by exact_mod_cast hlt
  have hz2 : (-2 : ℤ) < w - u - v := by exact_mod_cast hgt
  have habs1 : ((w - u - v : ℤ) : ℚ) ≤ 1 := by
    have : w - u - v ≤ 1 := by omega
    exact_mod_cast this
  have habs2 : (-1 : ℚ) ≤ ((w - u - v : ℤ) : ℚ) := by
    have : (-1 : ℤ) ≤ w - u - v := by omega
    exact_mod_cast this
  rw [abs_le]
  push_cast at habs1 habs2 ⊢
  constructor <;> linarith

/-- Evaluation rule for `psqlRound2` at a concrete nonnegative argument:
provide the floor `k` of `q * 100 + 1/2` and check the two bounds. -/
lemma psqlRound2_concrete (q : ℚ) (k : ℤ) (h0 : 0 ≤ q)
    (h1 : (k : ℚ) ≤ q * 100 + 1/2) (h2 : q * 100 + 1/2 < (k : ℚ) + 1) :
    psqlRound2 q = (k : ℚ) / 100 := by
  rw [psqlRound2_of_nonneg q h0]
  have : ⌊q * 100 + 1/2⌋ = k := by
    rw [Int.floor_eq_iff]
    exact ⟨h1, h2⟩
  rw [this]

/-- Values that are already integer multiples of `1/100` are fixed by the
rounding. -/
lemma psqlRound2_of_cent (k : ℤ) (hk : 0 ≤ k) :
    psqlRound2 ((k : ℚ) / 100) = (k : ℚ) / 100 := by
  have h0 : (0 : ℚ) ≤ (k : ℚ) / 100 := by
    have : (0 : ℚ) ≤ (k : ℚ) := by exact_mod_cast hk
    positivity
  have hc : (k : ℚ) / 100 * 100 = (k : ℚ) := div_mul_cancel₀ _ (by norm_num)
  refine psqlRound2_concrete _ k h0 ?_ ?_ <;> rw [hc] <;> linarith

lemma psqlRound2_zero : psqlRound2 0 = 0 := by
  have := psqlRound2_of_cent 0 le_rfl
  simpa using this

lemma psqlRound2_hundred : psqlRound2 100 = 100 := by
  rw [psqlRound2_of_nonneg 100 (by norm_num)]
  have : ⌊(100 : ℚ) * 100 + 1/2⌋ = 10000 := by
    rw [Int.floor_eq_iff]
    norm_num
  rw [this]
  norm_num

/-- A session that satisfies its check constraint has a nonnegative raw
duration. -/
lemma sessionRawHours_nonneg (tin tout : Option ℕ)
    (h : chkSessionTimes tin tout = true) : 0 ≤ sessionRawHours tin tout := by
  cases tin <;> cases tout <;>
    simp only [sessionRawHours, chkSessionTimes, decide_eq_true_eq] at h ⊢ <;>
    try norm_num
  rename_i a b
  have hab : (a : ℚ) ≤ (b : ℚ) := by exact_mod_cast Nat.le_of_lt h
  have hnum : (0 : ℚ) ≤ (b : ℚ) - (a : ℚ) := by linarith
  exact div_nonneg hnum (by norm_num)

/-! ## Concrete inputs used by witnesses and counterexamples -/

/-- 08:00–08:05 AM and 13:00–13:05 PM (microseconds since midnight). -/
def rSplit : TimeRecordRow :=
  ⟨0, some 28800000000, some 29100000000, some 46800000000,
    some 47100000000, .present⟩

/-- Scenario A: 08:00–12:00 AM and 13:00–17:00 PM. -/
def rScenA : TimeRecordRow :=
  ⟨0, some 28800000000, some 43200000000, some 46800000000,
    some 61200000000, .present⟩

/-- 08:00–12:30 AM only. -/
def rHalf : TimeRecordRow :=
  ⟨0, some 28800000000, some 45000000000, none, none, .present⟩

/-- Scenario C: AM in 08:00, AM out 07:00 (invalid order). -/
def rBad : TimeRecordRow :=
  ⟨0, some 28800000000, some 25200000000, none, none, .present⟩

/-- A four-hour day (08:00–12:00 AM) on day `d`. -/
def mkFourHourDay (d : ℤ) : TimeRecordRow :=
  ⟨d, some 28800000000, some 43200000000, none, none, .present⟩

/-- Scenario D: five four-hour days in one week. -/
def weekRecs : List TimeRecordRow :=
  [mkFourHourDay 0, mkFourHourDay 1, mkFourHourDay 2, mkFourHourDay 3,
    mkFourHourDay 4]

/-- Scenario D trainee: paid intern, rate 100, weekly cap 16. -/
def tPaid : Trainee := ⟨.paid_intern, some 100, 16, none, .active⟩

/-- Active OJT trainee with 500 required hours. -/
def tOjt : Trainee := ⟨.ojt, none, 40, some 500, .active⟩

/-- Corrupt OJT config: required hours stored as 0. -/
def tZeroReq : Trainee := ⟨.ojt, none, 40, some 0, .active⟩

/-- Corrupt OJT config: required hours NULL. -/
def tNullReq : Trainee := ⟨.ojt, none, 40, none, .active⟩

/-- A candidate record with no sessions, status absent, dated day 20000. -/
def fToday : TimeRecordForm := ⟨20000, none, none, none, none, .absent⟩

/-- Paid intern form with hourly_rate 0 (all other fields valid). -/
def paidZeroRate : TraineeForm := ⟨.paid_intern, some 0, 40, none, 0, none⟩

/-- Paid intern form with hourly_rate 50. -/
def paidPosRate : TraineeForm := ⟨.paid_intern, some 50, 40, none, 0, none⟩

/-! ## Claim theorems -/

/-- C1, counterexample: the stored `total_hours` is NOT always the sum of
the independently rounded `am_hours` and `pm_hours`.  For 08:00–08:05 AM
and 13:00–13:05 PM (a record with valid session ordering) the sessions each
round to 0.08 but the total rounds to 0.17 ≠ 0.16. -/
theorem total_hours_indep_rounding_cex :
    chk_am_times rSplit = true ∧ chk_pm_times rSplit = true ∧
    am_hours rSplit = 8/100 ∧ pm_hours rSplit = 8/100 ∧
    total_hours rSplit = 17/100 ∧
    total_hours rSplit ≠ am_hours rSplit + pm_hours rSplit := by
  have hA : sessionRawHours rSplit.am_time_in rSplit.am_time_out = 1/12 := by
    simp only [rSplit, sessionRawHours]
    norm_num
  have hP : sessionRawHours rSplit.pm_time_in rSplit.pm_time_out = 1/12 := by
    simp only [rSplit, sessionRawHours]
    norm_num
  have ham : am_hours rSplit = 8/100 := by
    unfold am_hours
    rw [hA,
      psqlRound2_concrete (1/12) 8 (by norm_num) (by norm_num) (by norm_num)]
    norm_num
  have hpm : pm_hours rSplit = 8/100 := by
    unfold pm_hours
    rw [hP,
      psqlRound2_concrete (1/12) 8 (by norm_num) (by norm_num) (by norm_num)]
    norm_num
  have htot : total_hours rSplit = 17/100 := by
    unfold total_hours
    rw [hA, hP]
    have hsum : (1/12 + 1/12 : ℚ) = 1/6 := by norm_num
    rw [hsum,
      psqlRound2_concrete (1/6) 17 (by norm_num) (by norm_num) (by norm_num)]
    norm_num
  refine ⟨by decide, by decide, ham, hpm, htot, ?_⟩
  rw [ham, hpm, htot]
  norm_num

/-- C1, amended: for every record with valid session ordering the stored
`total_hours` is the *sum of the two raw durations* rounded once to 2
decimals (the SQL generated column adds the raw CASE expressions before the
DECIMAL(4,2) cast); consequently it agrees with `am_hours + pm_hours` only
up to one cent. -/
theorem total_hours_single_rounding (r : TimeRecordRow)
    (ham : chk_am_times r = true) (hpm : chk_pm_times r = true) :
    total_hours r = psqlRound2 (sessionRawHours r.am_time_in r.am_time_out +
      sessionRawHours r.pm_time_in r.pm_time_out) ∧
    |total_hours r - (am_hours r + pm_hours r)| ≤ 1/100 := by
  refine ⟨rfl, ?_⟩
  simpa [total_hours, am_hours, pm_hours] using
    psqlRound2_add_bound _ _
      (sessionRawHours_nonneg _ _ ham) (sessionRawHours_nonneg _ _ hpm)

theorem total_hours_single_rounding_witness :
    |total_hours rSplit - (am_hours rSplit + pm_hours rSplit)| ≤ 1/100 :=
  (total_hours_single_rounding rSplit (by decide) (by decide)).2

/-- C4: for a session with both endpoints present and out strictly after
in, the stored hours are the raw duration in hours rounded half-up to 2
decimals — i.e. a multiple of 1/100 whose distance from the raw duration
lies in `(-1/200, 1/200]` — and a session with a missing endpoint

contributes 0. -/
theorem hour_calculator_spec (r : TimeRecordRow) :
    (∀ amIn amOut, r.am_time_in = some amIn → r.am_time_out = some amOut →
      amIn < amOut →
      (∃ k : ℤ, am_hours r = (k : ℚ) / 100) ∧
      -(1/200) < am_hours r - sessionRawHours r.am_time_in r.am_time_out ∧
      am_hours r - sessionRawHours r.am_time_in r.am_time_out ≤ 1/200) ∧
    ((r.am_time_in = none ∨ r.am_time_out = none) → am_hours r = 0) ∧
    (∀ pmIn pmOut, r.pm_time_in = some pmIn → r.pm_time_out = some pmOut →
      pmIn < pmOut →
      (∃ k : ℤ, pm_hours r = (k : ℚ) / 100) ∧
      -(1/200) < pm_hours r - sessionRawHours r.pm_time_in r.pm_time_out ∧
      pm_hours r - sessionRawHours r.pm_time_in r.pm_time_out ≤ 1/200) ∧
    ((r.pm_time_in = none ∨ r.pm_time_out = none) → pm_hours r = 0) := by
  have key : ∀ tin tout : Option ℕ, chkSessionTimes tin tout = true →
      -(1/200) < psqlRound2 (sessionRawHours tin tout) -
        sessionRawHours tin tout ∧
      psqlRound2 (sessionRawHours tin tout) - sessionRawHours tin tout ≤
        1/200 :=
    fun tin tout h => psqlRound2_err _ (sessionRawHours_nonneg tin tout h)
  have zero : ∀ tin tout : Option ℕ, tin = none ∨ tout = none →
      psqlRound2 (sessionRawHours tin tout) = 0 := by
    rintro tin tout (rfl | rfl)
    · cases tout <;> simp [sessionRawHours, psqlRound2_zero]
    · cases tin <;> simp [sessionRawHours, psqlRound2_zero]
  refine ⟨?_, ?_, ?_, ?_⟩
  · intro amIn amOut h1 h2 hlt
    have hchk : chkSessionTimes r.am_time_in r.am_time_out = true := by
      rw [h1, h2]; simpa [chkSessionTimes] using hlt
    exact ⟨psqlRound2_cent _, key _ _ hchk⟩
  · exact fun h => zero _ _ h
  · intro pmIn pmOut h1 h2 hlt
    have hchk : chkSessionTimes r.pm_time_in r.pm_time_out = true := by
      rw [h1, h2]; simpa [chkSessionTimes] using hlt
    exact ⟨psqlRound2_cent _, key _ _ hchk⟩
  · exact fun h => zero _ _ h

theorem hour_calculator_spec_witness :
    pm_hours rHalf = 0 ∧ am_hours rHalf = 45/10 ∧
    -(1/200) < am_hours rHalf -
      sessionRawHours rHalf.am_time_in rHalf.am_time_out := by
  have h := hour_calculator_spec rHalf
  have hraw : sessionRawHours rHalf.am_time_in rHalf.am_time_out = 9/2 := by
    simp only [rHalf, sessionRawHours]
    norm_num
  have hev : am_hours rHalf = 45/10 := by
    unfold am_hours
    rw [hraw, psqlRound2_concrete (9/2) 450 (by norm_num) (by norm_num)
      (by norm_num)]
    norm_num
  exact ⟨h.2.2.2 (Or.inl rfl), hev,
    (h.1 28800000000 45000000000 rfl rfl (by decide)).2.1⟩

/-- C6: a record whose session ordering is invalid (both endpoints present
with out ≤ in) violates `chk_am_times`/`chk_pm_times`, so the INSERT fails
with a check violation — the database-level realisation of the spec's
defensive `NegativeDuration` failure — and every row that is accepted has
nonnegative `am_hours`, `pm_hours` and `total_hours` (no negative or
wrapped value is ever stored). -/
theorem insert_rejects_invalid_order (r : TimeRecordRow) :
    (chk_am_times r = false →
      insert_time_record r = .error (.checkViolation "chk_am_times")) ∧
    (chk_pm_times r = false → isErr (insert_time_record r) = true) ∧
    (∀ s, insert_time_record r = .ok s →
      0 ≤ am_hours s ∧ 0 ≤ pm_hours s ∧ 0 ≤ total_hours s) := by
  refine ⟨fun h => by simp [insert_time_record, h], fun h => ?_, ?_⟩
  · rcases ham : chk_am_times r with _ | _ <;>
      simp [insert_time_record, ham, h, isErr]
  · intro s hs
    rcases ham : chk_am_times r with _ | _ <;>
      rcases hpm : chk_pm_times r with _ | _ <;>
      simp [insert_time_record, ham, hpm] at hs
    subst hs
    have h1 := sessionRawHours_nonneg _ _ ham
    have h2 := sessionRawHours_nonneg _ _ hpm
    exact ⟨psqlRound2_nonneg _ h1, psqlRound2_nonneg _ h2,
      psqlRound2_nonneg _ (by linarith)⟩

theorem insert_rejects_invalid_order_witness :
    insert_time_record rBad = .error (.checkViolation "chk_am_times") :=
  (insert_rejects_invalid_order rBad).1 (by decide)

/-- C10: for every trainee type the weekly summary's billable hours never
exceed the hours actually worked (the cap only ever reduces). -/
theorem billable_le_total_hours_worked (t : Trainee) (ws : ℤ)
    (recs : List TimeRecordRow) :
    (calculate_weekly_summary t ws recs).billable_hours ≤
      (calculate_weekly_summary t ws recs).total_hours_worked := by
  simp only [calculate_weekly_summary]
  split
  · exact min_le_left _ _
  · exact le_refl _

/-- C2: the weekly summary caps billable hours at `max_weekly_hours` for
paid and unpaid interns, leaves them uncapped for OJT, pays
`billable_hours * hourly_rate` for paid interns, and pays 0 for unpaid
interns and OJT. -/
theorem calculate_weekly_summary_spec (t : Trainee) (ws : ℤ)
    (recs : List TimeRecordRow) :
    ((t.trainee_type = .paid_intern ∨ t.trainee_type = .unpaid_intern) →
      (calculate_weekly_summary t ws recs).billable_hours =
        min (calculate_weekly_summary t ws recs).total_hours_worked
          (t.max_weekly_hours : ℚ)) ∧
    (t.trainee_type = .ojt →
      (calculate_weekly_summary t ws recs).billable_hours =
        (calculate_weekly_summary t ws recs).total_hours_worked) ∧
    (∀ rate, t.trainee_type = .paid_intern → t.hourly_rate = some rate →
      (calculate_weekly_summary t ws recs).gross_pay =
        some ((calculate_weekly_summary t ws recs).billable_hours * rate)) ∧
    ((t.trainee_type = .unpaid_intern ∨ t.trainee_type = .ojt) →
      (calculate_weekly_summary t ws recs).gross_pay = some 0) := by
  rcases t with ⟨ty, hr, mw, trh, st⟩
  cases ty <;>
    simp [calculate_weekly_summary]
  intro rate hrate
  rw [hrate]
  exact ⟨rate, rfl, Or.inl rfl⟩

theorem calculate_weekly_summary_spec_witness :
    (calculate_weekly_summary tPaid 0 weekRecs).total_hours_worked = 20 ∧
    (calculate_weekly_summary tPaid 0 weekRecs).billable_hours = 16 ∧
    (calculate_weekly_summary tPaid 0 weekRecs).gross_pay = some 1600 := by
  have h := calculate_weekly_summary_spec tPaid 0 weekRecs
  have hday : ∀ d : ℤ, total_hours (mkFourHourDay d) = 4 := by
    intro d
    unfold total_hours mkFourHourDay
    have hA : sessionRawHours (some 28800000000) (some 43200000000) = 4 := by
      simp [sessionRawHours]
      norm_num
    have hP : sessionRawHours (none : Option ℕ) (none : Option ℕ) = 0 := rfl
    rw [hA, hP, add_zero]
    have := psqlRound2_of_cent 400 (by norm_num)
    norm_num at this
    exact this
  have hdate : ∀ d : ℤ, (mkFourHourDay d).date = d := fun _ => rfl
  have hsum : (calculate_weekly_summary tPaid 0 weekRecs).total_hours_worked
      = 20 := by
    simp [calculate_weekly_summary, weekRecs, sumTotalHours, hdate, hday]
    norm_num
  have hb := h.1 (Or.inl rfl)
  rw [hsum] at hb
  have hb16 : (calculate_weekly_summary tPaid 0 weekRecs).billable_hours
      = 16 := by
    rw [hb]
    show min (20 : ℚ) ((16 : ℤ) : ℚ) = 16
    norm_num
  have hg := h.2.2.1 100 rfl rfl
  rw [hb16] at hg
  refine ⟨hsum, hb16, ?_⟩
  rw [hg]
  norm_num

/-- C3: for an active OJT trainee with positive required hours,
`get_ojt_progress` reports `hours_rendered` as the sum of all stored
`total_hours`, `remaining_hours` as the unclamped difference
`required − rendered`, and `completion_percentage` as
`round(rendered / required * 100, 2)`; when rendered equals required the
percentage is exactly 100. -/
theorem get_ojt_progress_spec (t : Trainee) (recs : List TimeRecordRow)
    (req : ℤ) (ht : t.trainee_type = .ojt) (hs : t.status = .active)
    (hr : t.total_required_hours = some req) (hpos : 0 < req) :
    get_ojt_progress t recs = .ok (some
      { total_required_hours := some req
        hours_rendered := sumTotalHours recs
        remaining_hours := some ((req : ℚ) - sumTotalHours recs)
        completion_percentage :=
          some (psqlRound2 (sumTotalHours recs / (req : ℚ) * 100)) }) ∧
    (sumTotalHours recs = (req : ℚ) →
      psqlRound2 (sumTotalHours recs / (req : ℚ) * 100) = 100) := by
  have hne : req ≠ 0 := by omega
  constructor
  · simp [get_ojt_progress, ht, hs, hr, hne]
  · intro hS
    have hcne : ((req : ℤ) : ℚ) ≠ 0 := Int.cast_ne_zero.mpr hne
    rw [hS, div_self hcne, one_mul, psqlRound2_hundred]

theorem get_ojt_progress_spec_witness :
    get_ojt_progress tOjt [rScenA] = .ok (some
      { total_required_hours := some 500
        hours_rendered := 8
        remaining_hours := some 492
        completion_percentage := some (8/5) }) := by
  have h := get_ojt_progress_spec tOjt [rScenA] 500 rfl rfl rfl (by norm_num)
  have hA : sessionRawHours rScenA.am_time_in rScenA.am_time_out = 4 := by
    simp only [rScenA, sessionRawHours]
    norm_num
  have hP : sessionRawHours rScenA.pm_time_in rScenA.pm_time_out = 4 := by
    simp only [rScenA, sessionRawHours]
    norm_num
  have h8 : total_hours rScenA = 8 := by
    unfold total_hours
    rw [hA, hP]
    have h800 := psqlRound2_of_cent 800 (by norm_num)
    norm_num at h800
    have h44 : (4 + 4 : ℚ) = 8 := by norm_num
    rw [h44, h800]
  have hsum : sumTotalHours [rScenA] = 8 := by
    simp [sumTotalHours, h8]
  rw [h.1, hsum]
  have hpct : psqlRound2 ((8 : ℚ) / ((500 : ℤ) : ℚ) * 100) = 8/5 := by
    have harg : (8 : ℚ) / ((500 : ℤ) : ℚ) * 100 = 8/5 := by
      push_cast
      norm_num
    rw [harg]
    have h160 := psqlRound2_of_cent 160 (by norm_num)
    norm_num at h160
    exact h160
  rw [hpct]
  norm_num

/-- C5, counterexample: invoked on an active OJT trainee whose
`total_required_hours` is 0, `get_ojt_progress` performs the division and
raises PostgreSQL's `division_by_zero` — not an `InvalidTraineeConfig`
failure — and when the field is NULL it silently returns a row with NULL
`remaining_hours` and `completion_percentage` instead of failing. -/
theorem ojt_corrupt_config_cex :
    get_ojt_progress tZeroReq [] = .error SqlError.divisionByZero ∧
    SqlError.divisionByZero ≠ SqlError.invalidTraineeConfig ∧
    get_ojt_progress tNullReq [] = .ok (some
      { total_required_hours := none
        hours_rendered := 0
        remaining_hours := none
        completion_percentage := none }) := by
  refine ⟨by simp [get_ojt_progress, tZeroReq], by simp, ?_⟩
  simp [get_ojt_progress, tNullReq, sumTotalHours]

/-- C5, amended: the code has no `InvalidTraineeConfig` guard.  On an
active OJT trainee, a NULL `total_required_hours` yields a silent row with
NULL derived columns, a zero value raises `division_by_zero`, and a
negative value silently computes a negative percentage. -/
theorem ojt_corrupt_config_behavior (t : Trainee) (recs : List TimeRecordRow)
    (ht : t.trainee_type = .ojt) (hs : t.status = .active) :
    (t.total_required_hours = none →
      get_ojt_progress t recs = .ok (some
        { total_required_hours := none
          hours_rendered := sumTotalHours recs
          remaining_hours := none
          completion_percentage := none })) ∧
    (t.total_required_hours = some 0 →
      get_ojt_progress t recs = .error .divisionByZero) ∧
    (∀ req, t.total_required_hours = some req → req < 0 →
      get_ojt_progress t recs = .ok (some
        { total_required_hours := some req
          hours_rendered := sumTotalHours recs
          remaining_hours := some ((req : ℚ) - sumTotalHours recs)
          completion_percentage :=
            some (psqlRound2 (sumTotalHours recs / (req : ℚ) * 100)) })) := by
  refine ⟨fun h => ?_, fun h => ?_, fun req h hneg => ?_⟩
  · simp [get_ojt_progress, ht, hs, h]
  · simp [get_ojt_progress, ht, hs, h]
  · have hne : req ≠ 0 := by omega
    simp [get_ojt_progress, ht, hs, h, hne]

theorem ojt_corrupt_config_behavior_witness :
    get_ojt_progress tNullReq [] = .ok (some
      { total_required_hours := none
        hours_rendered := sumTotalHours []
        remaining_hours := none
        completion_percentage := none }) ∧
    get_ojt_progress tZeroReq [] = .error .divisionByZero := by
  have h1 := ojt_corrupt_config_behavior tNullReq [] rfl rfl
  have h2 := ojt_corrupt_config_behavior tZeroReq [] rfl rfl
  exact ⟨h1.1 rfl, h2.2.1 rfl⟩

/-- C7: the time-record validator runs all five rule checks in one pass and
returns exactly the violated rules — membership in the result coincides
with the per-rule condition, and the result is empty precisely when no rule
is violated. -/
theorem validateTimeRecord_all_violations (f : TimeRecordForm)
    (today tz : ℤ) :
    (∀ c, c ∈ validateTimeRecord f today tz ↔
      violates c f today tz = true) ∧
    (validateTimeRecord f today tz = [] ↔
      ∀ c, violates c f today tz = false) := by
  have hmem : ∀ c, c ∈ validateTimeRecord f today tz ↔
      violates c f today tz = true := by
    intro c
    rcases f with ⟨d, a1, a2, p1, p2, st⟩
    cases c <;> cases a1 <;> cases a2 <;> cases p1 <;> cases p2 <;>
      simp [validateTimeRecord, violates] <;> split_ifs <;> simp_all
  refine ⟨hmem, ?_, ?_⟩
  · intro he c
    cases hvc : violates c f today tz
    · rfl
    · have hc := (hmem c).mpr hvc
      rw [he] at hc
      simp at hc
  · intro hv
    by_contra hne
    obtain ⟨c, hc⟩ := List.exists_mem_of_ne_nil _ hne
    have hvt := (hmem c).mp hc
    rw [hv c] at hvt
    exact Bool.false_ne_true hvt

/-- C8, code evaluated at the failing input: with the runtime timezone at
UTC+8 (offset +480 minutes) a record dated *today* (day 20000, no sessions,
status absent) is rejected with the future-date rule, because the record
date parses as UTC midnight while "today" is local midnight; at UTC offset
0 the same record passes.  The claim says a record dated today is never
rejected by this rule. -/
theorem future_date_today_utc8_bug :
    validateTimeRecord fToday 20000 480 = [RuleCode.futureDateNotAllowed] ∧
    validateTimeRecord fToday 20000 0 = [] ∧
    violates .futureDateNotAllowed fToday 20000 480 = true := by
  decide

/-- C9, code evaluated at the failing input: a paid-intern configuration
with `hourly_rate = 0` (which the base schema's `min(0)` allows and the
documented invariant accepts) is rejected, because the refinement tests
JavaScript falsiness (`!data.hourly_rate`) and 0 is falsy; the same
configuration with a positive rate is accepted. -/
theorem paid_intern_zero_rate_rejected :
    traineeSchemaIssues paidZeroRate =
      [TraineeIssue.hourlyRateRequiredForPaid] ∧
    traineeSchemaIssues paidPosRate = [] := by
  decide

end Logcha
